import Mathlib

/-!
Shallow embedding of `src/dnd-core.mjs` (html-dnd-js), a pointer drag-and-drop
gesture controller.

The module keeps mutable singletons: `state` (props, dx, dy, canceled), the
coordinate records `current` and `initial`, the pending timeout handle `defer`
and the movement threshold `detach`, plus a swapped style record used by
`toggleUserSelect`.  We model all of this as one explicit `Machine` record and
translate each handler (`start`, `move`, `drop`, `cancel`, `cleanup`,
`toggleUserSelect`, `fill`, `getPointer`) into a pure function on `Machine`
that also returns the list of notifications dispatched on the observer.

JavaScript `undefined`/NaN propagation in coordinate arithmetic is modelled
with `Option Int`: `undefined - x` is NaN, and `NaN < detach` is `false`,
which the helpers `jsub`, `jadd` and `jlt` reproduce.

The `setTimeout` callback installed by `start` captures the pointer-down
event `e` and runs `defer = null; move(e)` when the delay elapses; we store
the captured event in `Machine.defer` and model the delay elapsing as an
explicit `Action.fire` step (`timerFire`), so that trace order, not wall-clock
time, expresses "before/after the delay".  `clearTimeout` is `defer := none`:
a cleared timer never fires, which in the model is `timerFire` being a no-op
when `defer = none`.
-/

namespace DndCore

/-- A pointer event as seen by the handlers: a `MouseEvent` with client
coordinates, or a touch event carrying its `touches` and `changedTouches`
lists (each touch point reduced to its `clientX`/`clientY`). -/
inductive PEvent where
  | mouse (x y : Int)
  | touch (touches changed : List (Int × Int))
deriving DecidableEq, Repr

/-- `getPointer(e)`: a mouse event is its own pointer; for a touch event take
`touches[0]` when `touches` is non-empty, otherwise `changedTouches[0]`
(which is `undefined`, i.e. `none`, when that list is empty too).  The
`e == null` guard of the source is unreachable here because handlers are
always invoked with an event. -/
def getPointer : PEvent → Option (Int × Int)
  | PEvent.mouse x y => some (x, y)
  | PEvent.touch touches changed => touches.head?.orElse fun _ => changed.head?

/-- A coordinate record such as the module-level `current` / `initial`;
`none` models `undefined` (fields are reset to `undefined` by `cleanup`). -/
structure Pos where
  x : Option Int
  y : Option Int
deriving DecidableEq, Repr

/-- `fill(s, e)`: `s.x = p?.clientX; s.y = p?.clientY` with
`p = getPointer(e)`. -/
def fillPos (e : PEvent) : Pos :=
  match getPointer e with
  | some p => { x := some p.1, y := some p.2 }
  | none => { x := none, y := none }

/-- JavaScript subtraction on possibly-undefined numbers: any `undefined`
operand yields NaN (`none`). -/
def jsub : Option Int → Option Int → Option Int
  | some a, some b => some (a - b)
  | _, _ => none

/-- JavaScript addition on possibly-NaN numbers. -/
def jadd : Option Int → Option Int → Option Int
  | some a, some b => some (a + b)
  | _, _ => none

/-- JavaScript `<` against a number: any comparison involving NaN is
`false`. -/
def jlt : Option Int → Int → Bool
  | some a, t => decide (a < t)
  | none, _ => false

/-- The exported `state` object: `props` (draggable id, `null` when idle,
modelled as `Option Nat` since it is opaque), the shift `dx`/`dy` and the
`canceled` flag. -/
structure DndState where
  props : Option Nat
  dx : Option Int
  dy : Option Int
  canceled : Bool
deriving DecidableEq, Repr

/-- The four user-select style properties saved/written by
`toggleUserSelect`; the source keeps them in the module variable `style` and
swaps them with `document.body.style`. -/
structure SelectStyle where
  webkitUserSelect : String
  MozUserSelect : String
  msUserSelect : String
  userSelect : String
deriving DecidableEq, Repr

/-- A notification dispatched on the observer: the event type
(`dnd-drag` / `dnd-drop`) together with the `state` snapshot passed as
`detail` at dispatch time. -/
inductive Notif where
  | drag (s : DndState)
  | drop (s : DndState)
deriving DecidableEq, Repr

/-- The whole mutable module state: `state`, the `current` and `initial`
coordinate records, the pending timer `defer` (the captured pointer-down
event, `none` when no timer is armed), the threshold `detach`, the
document body's user-select style values and the module `style` variable. -/
structure Machine where
  state : DndState
  current : Pos
  initial : Pos
  defer : Option PEvent
  detach : Int
  bodyStyle : SelectStyle
  styleVar : SelectStyle
deriving DecidableEq, Repr

/-- The module state at load: `state = {props: null, dx: 0, dy: 0,
canceled: false}`, coordinates `undefined`, no timer, `detach = 2`, and the
`style` variable holding `"none"` for all four properties.  The body style
starts from the empty inline values. -/
def initMachine : Machine :=
  { state := { props := none, dx := some 0, dy := some 0, canceled := false }
    current := { x := none, y := none }
    initial := { x := none, y := none }
    defer := none
    detach := 2
    bodyStyle := { webkitUserSelect := "", MozUserSelect := "",
                   msUserSelect := "", userSelect := "" }
    styleVar := { webkitUserSelect := "none", MozUserSelect := "none",
                  msUserSelect := "none", userSelect := "none" } }

/-- `toggleUserSelect()`: reads the body's four values into `tmp`, writes the
module `style` values onto the body, then stores `tmp` in `style` — an exact
swap of the two records. -/
def toggleUserSelect (m : Machine) : Machine :=
  { m with bodyStyle := m.styleVar, styleVar := m.bodyStyle }

/-- `cleanup()`: no-op when idle; otherwise restores the user-select styles,
resets `state` to its idle shape, clears the timer, clears both coordinate
records and restores the default threshold. -/
def cleanup (m : Machine) : Machine :=
  if m.state.props = none then m
  else
    { state := { props := none, dx := some 0, dy := some 0, canceled := false }
      current := { x := none, y := none }
      initial := { x := none, y := none }
      defer := none
      detach := 2
      bodyStyle := m.styleVar
      styleVar := m.bodyStyle }

/-- `cancel()`: no-op when idle; otherwise sets `canceled = true`, dispatches
`dnd-drop` with the current state, and (in a `finally`) runs `cleanup`. -/
def cancel (m : Machine) : Machine × List Notif :=
  if m.state.props = none then (m, [])
  else
    (cleanup { m with state := { m.state with canceled := true } },
     [Notif.drop { m.state with canceled := true }])

/-- `drop()`: no-op when idle; when a timer is still pending the dispatch is
skipped (the gesture never became a drag); otherwise dispatches `dnd-drop`;
in both cases `cleanup` runs (`finally`). -/
def drop (m : Machine) : Machine × List Notif :=
  if m.state.props = none then (m, [])
  else (cleanup m, if m.defer = none then [Notif.drop m.state] else [])

/-- `move(e)`: no-op when idle; otherwise fills `current` from the event,
recomputes `dx`/`dy` from `initial`, and — when a timer is still pending —
returns without dispatching if `dx + dy < detach` (signed sum; a NaN sum
compares `false` so it falls through), else clears the timer; finally
dispatches `dnd-drag` with the updated state.  (`preventDefault` on touch
events is a DOM side effect with no bearing on the machine state.) -/
def move (e : PEvent) (m : Machine) : Machine × List Notif :=
  if m.state.props = none then (m, [])
  else
    let cur := fillPos e
    let dx := jsub cur.x m.initial.x
    let dy := jsub cur.y m.initial.y
    let st : DndState := { m.state with dx := dx, dy := dy }
    let m1 : Machine := { m with current := cur, state := st }
    match m.defer with
    | some _ =>
      if jlt (jadd dx dy) m.detach then (m1, [])
      else ({ m1 with defer := none }, [Notif.drag st])
    | none => (m1, [Notif.drag st])

/-- `start(props, delay, e)` (the bound pointer-down handler): if a gesture
is already active it cancels it and returns — the new gesture does not
begin.  Otherwise it suppresses selection, records `props`, fills `initial`
from the event and arms the delay timer, whose callback captures `e`.
The numeric `delay` only schedules the callback and is represented by the
position of `Action.fire` in a trace. -/
def start (props : Nat) (e : PEvent) (m : Machine) : Machine × List Notif :=
  if m.state.props = none then
    let m1 := toggleUserSelect m
    ({ m1 with state := { m1.state with props := some props }
               initial := fillPos e
               defer := some e }, [])
  else cancel m

/-- The delay timer elapsing: the `setTimeout` callback runs
`defer = null; move(e)` with the captured pointer-down event.  A cleared
timer (`defer = none`) never fires. -/
def timerFire (m : Machine) : Machine × List Notif :=
  match m.defer with
  | none => (m, [])
  | some e => move e { m with defer := none }

/-- The raw inputs driving the controller: pointer-down on a draggable
(`down`), window-level pointer move (`mv`) and release (`up`), the delay
timer elapsing (`fire`), and the cancel-path events — context-menu,
touch-cancel, a second touch-start (`cancelEv`). -/
inductive Action where
  | down (props : Nat) (e : PEvent)
  | mv (e : PEvent)
  | up
  | fire
  | cancelEv
deriving DecidableEq, Repr

/-- One handler invocation. -/
def step (m : Machine) : Action → Machine × List Notif
  | Action.down p e => start p e m
  | Action.mv e => move e m
  | Action.up => drop m
  | Action.fire => timerFire m
  | Action.cancelEv => cancel m

/-- Run a trace of actions, concatenating the dispatched notifications. -/
def run (m : Machine) : List Action → Machine × List Notif
  | [] => (m, [])
  | a :: as => ((run (step m a).1 as).1, (step m a).2 ++ (run (step m a).1 as).2)

/-- The idle shape of the observable machine state: no subject, zero deltas,
`canceled` clear, no armed timer. -/
def IsIdle (m : Machine) : Prop :=
  m.state.props = none ∧ m.state.dx = some 0 ∧ m.state.dy = some 0 ∧
    m.state.canceled = false ∧ m.defer = none

instance (m : Machine) : Decidable (IsIdle m) := by
  unfold IsIdle; infer_instance

/-!
Dispatch with a throwing subscriber.  `cancel` and `drop` wrap the dispatch
in `try { ... } finally { cleanup() }`: when a subscriber handler throws
during `dispatch`, `cleanup` still runs and the exception then propagates to
the caller.  `throws` says whether the subscriber handler throws on the next
notification; the returned `Bool` says whether an exception escapes the
handler. -/

/-- `cancel()` with a possibly-throwing subscriber: the dispatch is attempted
(with `canceled = true` already set), `cleanup` runs in the `finally`, and the
subscriber's exception, if any, escapes. -/
def cancelThrow (throws : Bool) (m : Machine) : Machine × List Notif × Bool :=
  if m.state.props = none then (m, [], false)
  else
    (cleanup { m with state := { m.state with canceled := true } },
     [Notif.drop { m.state with canceled := true }], throws)

/-- `drop()` with a possibly-throwing subscriber: the dispatch is attempted
only when no timer is pending, `cleanup` runs in the `finally`, and the
subscriber's exception, if any, escapes. -/
def dropThrow (throws : Bool) (m : Machine) : Machine × List Notif × Bool :=
  if m.state.props = none then (m, [], false)
  else if m.defer = none then (cleanup m, [Notif.drop m.state], throws)
  else (cleanup m, [], false)

/-!
Window listener registration (`init`).  A DOM listener registration is
identified by the event type, the handler function and the capture flag;
`addEventListener` is idempotent on an identical triple and
`removeEventListener` only removes a triple matching all three components —
in particular a remove with a different capture flag does not detach the
listener.
-/

/-- The three handler functions `init` wires to the window. -/
inductive Handler where
  | move
  | drop
  | cancel
deriving DecidableEq, Repr

/-- A window listener registration: event type, handler, capture flag. -/
structure Listener where
  ev : String
  handler : Handler
  capture : Bool
deriving DecidableEq, Repr

/-- `window.addEventListener`: a no-op if the identical registration is
already present, otherwise appends it. -/
def addL (regs : List Listener) (l : Listener) : List Listener :=
  if l ∈ regs then regs else regs ++ [l]

/-- `window.removeEventListener`: removes the registration matching event
type, handler and capture flag. -/
def removeL (regs : List Listener) (l : Listener) : List Listener :=
  regs.filter fun x => x ≠ l

/-- `init()`: registers `mousemove` (capture), `mouseup`, `touchmove`,
`touchend`, `contextmenu`, `touchcancel`, and a capture-phase `touchstart`
interruptor. -/
def initListeners (regs : List Listener) : List Listener :=
  [⟨"mousemove", Handler.move, true⟩,
   ⟨"mouseup", Handler.drop, false⟩,
   ⟨"touchmove", Handler.move, false⟩,
   ⟨"touchend", Handler.drop, false⟩,
   ⟨"contextmenu", Handler.cancel, false⟩,
   ⟨"touchcancel", Handler.cancel, false⟩,
   ⟨"touchstart", Handler.cancel, true⟩].foldl addL regs

/-- The teardown closure returned by `init()`: it removes `mousemove`
(capture), `mouseup`, `touchmove`, `touchend`, and `touchstart` — the last
without a capture flag, although it was added with `capture: true`; no
removal is issued for `contextmenu` or `touchcancel`. -/
def initTeardown (regs : List Listener) : List Listener :=
  [⟨"mousemove", Handler.move, true⟩,
   ⟨"mouseup", Handler.drop, false⟩,
   ⟨"touchmove", Handler.move, false⟩,
   ⟨"touchend", Handler.drop, false⟩,
   ⟨"touchstart", Handler.cancel, false⟩].foldl removeL regs

/-!
`draggable(props, element, config)` configuration handling.
-/

/-- The `Config` object: both fields may be `undefined`. -/
structure Config where
  delay : Option Int
  detach : Option Int
deriving DecidableEq, Repr

/-- A JavaScript runtime error. -/
inductive JsError where
  | typeError
deriving DecidableEq, Repr

/-- The configuration reads at the top of `draggable`: `config.delay ?? 50`
and `detach = config.detach ?? detach` (the second argument is the current
module-level `detach`).  The parameter `config` may be `undefined`
(`none`), in which case the unguarded property access `config.delay` throws
a `TypeError`; there is no fallback to a default configuration.  On success
returns the effective `(delay, detach)`. -/
def draggableConfig (config : Option Config) (detach0 : Int) :
    Except JsError (Int × Int) :=
  match config with
  | none => Except.error JsError.typeError
  | some c => Except.ok (c.delay.getD 50, c.detach.getD detach0)

/-- The invariant of the idle-vs-active correspondence: whenever no subject
is recorded (`props = null`), the deltas are zero, the `canceled` flag is
clear and no timer is armed. -/
def Inv (m : Machine) : Prop :=
  m.state.props = none →
    m.state.dx = some 0 ∧ m.state.dy = some 0 ∧ m.state.canceled = false ∧
      m.defer = none

instance (m : Machine) : Decidable (Inv m) := by
  unfold Inv; infer_instance

/-- Actions that can occur strictly inside a gesture: pointer moves and the
delay timer elapsing. -/
def Mid (a : Action) : Prop :=
  a = Action.fire ∨ ∃ e, a = Action.mv e

/-- Running an appended trace runs the pieces in sequence. -/
theorem run_append (as bs : List Action) (m : Machine) :
    (run m (as ++ bs)).1 = (run (run m as).1 bs).1 := by
  induction as generalizing m with
  | nil => simp [run]
  | cons a as ih => simp [run, ih]

/-- `move` and `timerFire` never touch the style records or the recorded
subject. -/
theorem step_mid_preserves (m : Machine) (a : Action) (h : Mid a) :
    (step m a).1.bodyStyle = m.bodyStyle ∧ (step m a).1.styleVar = m.styleVar ∧
      (step m a).1.state.props = m.state.props := by
  have hmv : ∀ e, (move e m).1.bodyStyle = m.bodyStyle ∧
      (move e m).1.styleVar = m.styleVar ∧
      (move e m).1.state.props = m.state.props := by
    intro e
    unfold move
    by_cases hp : m.state.props = none
    · simp [hp]
    · cases hd : m.defer with
      | none => simp [hp, hd]
      | some d =>
        simp only [hp, if_false, hd]
        split <;> simp
  rcases h with h | ⟨e, h⟩ <;> subst h
  · unfold step timerFire
    cases hd : m.defer with
    | none => simp
    | some e =>
      unfold move
      by_cases hp : m.state.props = none
      · simp [hp]
      · simp [hp]
  · exact hmv e

/-- A trace of in-gesture actions preserves the style records and the
recorded subject. -/
theorem run_mid_preserves (as : List Action) :
    ∀ m : Machine, (∀ a ∈ as, Mid a) →
      (run m as).1.bodyStyle = m.bodyStyle ∧
        (run m as).1.styleVar = m.styleVar ∧
        (run m as).1.state.props = m.state.props := by
  induction as with
  | nil => intro m _; simp [run]
  | cons a as ih =>
    intro m h
    have h1 := step_mid_preserves m a (h a (by simp))
    have h2 := ih (step m a).1 (fun b hb => h b (by simp [hb]))
    simp [run]
    exact ⟨h2.1.trans h1.1, h2.2.1.trans h1.2.1, h2.2.2.trans h1.2.2⟩

/-- While the drag is confirmed (`defer = null`), every further mouse move
dispatches one `dnd-drag` whose delta is measured from the recorded
`initial` position, which never changes during the gesture. -/
theorem run_moves_dragging (ms : List (Int × Int)) :
    ∀ (m : Machine) (q : Nat) (x0 y0 : Int) (dx0 dy0 : Option Int),
      m.state = { props := some q, dx := dx0, dy := dy0, canceled := false } →
      m.defer = none →
      m.initial = { x := some x0, y := some y0 } →
      (run m (ms.map fun pr => Action.mv (PEvent.mouse pr.1 pr.2))).2 =
        ms.map fun pr =>
          Notif.drag { props := some q, dx := some (pr.1 - x0),
                       dy := some (pr.2 - y0), canceled := false } := by
  induction ms with
  | nil => intro m q x0 y0 dx0 dy0 _ _ _; simp [run]
  | cons pr ms ih =>
    intro m q x0 y0 dx0 dy0 hs hd hi
    have hstep : step m (Action.mv (PEvent.mouse pr.1 pr.2)) =
        ({ m with
            current := { x := some pr.1, y := some pr.2 }
            state := { props := some q, dx := some (pr.1 - x0),
                       dy := some (pr.2 - y0), canceled := false } },
         [Notif.drag { props := some q, dx := some (pr.1 - x0),
                       dy := some (pr.2 - y0), canceled := false }]) := by
      simp [step, move, fillPos, getPointer, jsub, hs, hd, hi]
    simp only [List.map_cons, run, hstep]
    rw [ih ({ m with
          current := { x := some pr.1, y := some pr.2 }
          state := { props := some q, dx := some (pr.1 - x0),
                     dy := some (pr.2 - y0), canceled := false } })
        q x0 y0 (some (pr.1 - x0)) (some (pr.2 - y0)) rfl hd hi]
    simp

/-- C1 (counterexample): with the default threshold 2, a gesture in the
Pending state (subject recorded, timer armed) that receives a move to
`(5, -5)` from initial `(0, 0)` has combined absolute displacement
`|dx| + |dy| = 10 ≥ 2`, yet the code emits no `dnd-drag` and the pending
timer stays armed: reaching the threshold in the `|dx| + |dy|` sense does
not cause the claimed immediate transition to Dragging. -/
theorem abs_threshold_move_not_dragging :
    (run initMachine [Action.down 1 (PEvent.mouse 0 0)]).1.state.props = some 1 ∧
    (run initMachine [Action.down 1 (PEvent.mouse 0 0)]).1.defer ≠ none ∧
    (run initMachine [Action.down 1 (PEvent.mouse 0 0)]).1.detach ≤
      |(5 : Int) - 0| + |(-5 : Int) - 0| ∧
    (move (PEvent.mouse 5 (-5))
      (run initMachine [Action.down 1 (PEvent.mouse 0 0)]).1).2 = [] ∧
    (move (PEvent.mouse 5 (-5))
        (run initMachine [Action.down 1 (PEvent.mouse 0 0)]).1).1.defer =
      (run initMachine [Action.down 1 (PEvent.mouse 0 0)]).1.defer := by
  decide

/-- C1 (amended: the comparison uses the raw signed sum `dx + dy`, not
`|dx| + |dy|`): for every gesture in the Pending state, a pointer-move whose
signed displacement sum `dx + dy` from the initial pointer-down position
reaches `detach` before the delay timer fires causes an immediate
transition to Dragging at that move — the pending timer is cleared and a
cleared timer never fires, a first `dnd-drag` is emitted with the delta from
the initial position, and every subsequent move emits a `dnd-drag` whose
delta is measured from the original pointer-down position, not from the
threshold-crossing position. -/
theorem signed_threshold_starts_drag (m : Machine) (q : Nat)
    (x0 y0 x1 y1 : Int) (d : PEvent) (dx0 dy0 : Option Int)
    (hs : m.state = { props := some q, dx := dx0, dy := dy0, canceled := false })
    (hd : m.defer = some d)
    (hi : m.initial = { x := some x0, y := some y0 })
    (ht : m.detach ≤ (x1 - x0) + (y1 - y0)) :
    (move (PEvent.mouse x1 y1) m).2 =
      [Notif.drag { props := some q, dx := some (x1 - x0), dy := some (y1 - y0),
                    canceled := false }] ∧
    (move (PEvent.mouse x1 y1) m).1.defer = none ∧
    timerFire (move (PEvent.mouse x1 y1) m).1 =
      ((move (PEvent.mouse x1 y1) m).1, []) ∧
    ∀ ms : List (Int × Int),
      (run (move (PEvent.mouse x1 y1) m).1
          (ms.map fun pr => Action.mv (PEvent.mouse pr.1 pr.2))).2 =
        ms.map fun pr =>
          Notif.drag { props := some q, dx := some (pr.1 - x0),
                       dy := some (pr.2 - y0), canceled := false } := by
  have hc : ¬ ((x1 - x0) + (y1 - y0) < m.detach) := not_lt.mpr ht
  have hmv : move (PEvent.mouse x1 y1) m =
      ({ m with
          current := { x := some x1, y := some y1 }
          state := { props := some q, dx := some (x1 - x0),
                     dy := some (y1 - y0), canceled := false }
          defer := none },
       [Notif.drag { props := some q, dx := some (x1 - x0),
                     dy := some (y1 - y0), canceled := false }]) := by
    simp [move, fillPos, getPointer, jsub, jadd, jlt, hs, hd, hi, hc]
  refine ⟨by rw [hmv], by rw [hmv], by rw [hmv]; rfl, ?_⟩
  intro ms
  rw [hmv]
  exact run_moves_dragging ms _ q x0 y0 _ _ rfl rfl hi

/-- C1 witness: the amended theorem applied to the concrete Pending machine
obtained by pressing at `(0, 0)`, with a move to `(5, 1)`. -/
theorem signed_threshold_starts_drag_witness :
    (move (PEvent.mouse 5 1)
      (run initMachine [Action.down 1 (PEvent.mouse 0 0)]).1).2 =
      [Notif.drag { props := some 1, dx := some (5 - 0), dy := some (1 - 0),
                    canceled := false }] ∧
    (move (PEvent.mouse 5 1)
      (run initMachine [Action.down 1 (PEvent.mouse 0 0)]).1).1.defer = none :=
  have h := signed_threshold_starts_drag
    (run initMachine [Action.down 1 (PEvent.mouse 0 0)]).1 1 0 0 5 1
    (PEvent.mouse 0 0) (some 0) (some 0) (by decide) (by decide) (by decide)
    (by decide)
  ⟨h.1, h.2.1⟩

/-- C2: the Pending-state threshold comparison uses the raw signed sum
`dx + dy`: a gesture in Pending with threshold 2 that receives a move
displaced by `(+5, -5)` from the initial position emits no `dnd-drag` and
does not start the drag — the pending timer stays armed. -/
theorem pending_diagonal_move_is_noop (m : Machine) (q : Nat)
    (x0 y0 : Int) (d : PEvent)
    (hp : m.state.props = some q) (hd : m.defer = some d)
    (hi : m.initial = { x := some x0, y := some y0 })
    (ht : m.detach = 2) :
    (move (PEvent.mouse (x0 + 5) (y0 - 5)) m).2 = [] ∧
    (move (PEvent.mouse (x0 + 5) (y0 - 5)) m).1.defer = some d := by
  have hc : jlt (jadd (jsub (some (x0 + 5)) m.initial.x)
      (jsub (some (y0 - 5)) m.initial.y)) m.detach = true := by
    rw [hi]
    simp [jsub, jadd, jlt, ht]
  refine ⟨?_, ?_⟩ <;> simp [move, fillPos, getPointer, hp, hd, hc]

/-- C2 witness: the concrete Pending machine obtained by pressing at
`(0, 0)` with the default threshold 2, moved to `(5, -5)`. -/
theorem pending_diagonal_move_is_noop_witness :
    (move (PEvent.mouse (0 + 5) (0 - 5))
      (run initMachine [Action.down 1 (PEvent.mouse 0 0)]).1).2 = [] ∧
    (move (PEvent.mouse (0 + 5) (0 - 5))
        (run initMachine [Action.down 1 (PEvent.mouse 0 0)]).1).1.defer =
      some (PEvent.mouse 0 0) :=
  pending_diagonal_move_is_noop
    (run initMachine [Action.down 1 (PEvent.mouse 0 0)]).1 1 0 0
    (PEvent.mouse 0 0) (by decide) (by decide) (by decide) (by decide)

/-- C3: a pointer-down followed by a pointer-up with no intervening move and
with the delay timer not yet fired emits zero `dnd-drag` and zero `dnd-drop`
notifications, the state returns to idle, and the timer that was armed never
fires afterwards (it was cleared by cleanup, so a later fire is a no-op). -/
theorem quick_release_is_silent (m : Machine) (p : Nat) (e : PEvent)
    (h : m.state.props = none) :
    (run m [Action.down p e, Action.up]).2 = [] ∧
    IsIdle (run m [Action.down p e, Action.up]).1 ∧
    timerFire (run m [Action.down p e, Action.up]).1 =
      ((run m [Action.down p e, Action.up]).1, []) := by
  simp [run, step, start, drop, cleanup, toggleUserSelect, timerFire, IsIdle, h]

/-- C3 witness: the fresh machine, pressed at `(0, 0)` and released. -/
theorem quick_release_is_silent_witness :
    (run initMachine [Action.down 1 (PEvent.mouse 0 0), Action.up]).2 = [] ∧
    IsIdle (run initMachine [Action.down 1 (PEvent.mouse 0 0), Action.up]).1 :=
  have h := quick_release_is_silent initMachine 1 (PEvent.mouse 0 0) (by decide)
  ⟨h.1, h.2.1⟩

/-- C4: every cancel-path event received while a gesture is active —
whether still Pending or already Dragging — emits exactly one terminating
`dnd-drop` whose `canceled` flag is true, after which the state resets to
idle; a new pointer-down while a gesture is active takes exactly the cancel
path (and does not begin the new gesture). -/
theorem cancel_emits_canceled_drop (m : Machine) (q : Nat)
    (hp : m.state.props = some q) :
    (cancel m).2 = [Notif.drop { m.state with canceled := true }] ∧
    (Notif.drop { m.state with canceled := true } =
      Notif.drop { props := m.state.props, dx := m.state.dx, dy := m.state.dy,
                   canceled := true }) ∧
    IsIdle (cancel m).1 ∧
    ∀ (p : Nat) (e : PEvent), start p e m = cancel m := by
  refine ⟨by simp [cancel, hp], rfl, ?_, ?_⟩
  · simp [cancel, cleanup, IsIdle, hp]
  · intro p e
    simp [start, hp]

/-- C4 witness: cancel applied to the Pending machine obtained by pressing
at `(0, 0)` (the timer has not fired, yet the canceled drop is emitted). -/
theorem cancel_emits_canceled_drop_witness :
    (cancel (run initMachine [Action.down 1 (PEvent.mouse 0 0)]).1).2 =
      [Notif.drop { props := some 1, dx := some 0, dy := some 0,
                    canceled := true }] ∧
    IsIdle (cancel (run initMachine [Action.down 1 (PEvent.mouse 0 0)]).1).1 ∧
    start 2 (PEvent.mouse 9 9)
        (run initMachine [Action.down 1 (PEvent.mouse 0 0)]).1 =
      cancel (run initMachine [Action.down 1 (PEvent.mouse 0 0)]).1 :=
  have h := cancel_emits_canceled_drop
    (run initMachine [Action.down 1 (PEvent.mouse 0 0)]).1 1 (by decide)
  ⟨h.1, h.2.2.1, h.2.2.2 2 (PEvent.mouse 9 9)⟩

/-- C5: when the delay elapses with no pointer-move, exactly one `dnd-drag`
is emitted at the timer fire, carrying delta `(0, 0)`, and a subsequent
pointer-up emits exactly one `dnd-drop` with `canceled = false`; the state
then returns to idle. -/
theorem delay_elapsed_drag_then_drop (m : Machine) (p : Nat) (x y : Int)
    (h : IsIdle m) :
    (run m [Action.down p (PEvent.mouse x y), Action.fire, Action.up]).2 =
      [Notif.drag { props := some p, dx := some 0, dy := some 0,
                    canceled := false },
       Notif.drop { props := some p, dx := some 0, dy := some 0,
                    canceled := false }] ∧
    IsIdle (run m [Action.down p (PEvent.mouse x y), Action.fire,
      Action.up]).1 := by
  obtain ⟨h1, h2, h3, h4, h5⟩ := h
  simp [run, step, start, move, timerFire, drop, cleanup, toggleUserSelect,
    fillPos, getPointer, jsub, jadd, jlt, IsIdle, h1, h4]

/-- C5 witness: the fresh machine pressed at `(3, 4)`, timer fired, then
released. -/
theorem delay_elapsed_drag_then_drop_witness :
    (run initMachine [Action.down 1 (PEvent.mouse 3 4), Action.fire,
        Action.up]).2 =
      [Notif.drag { props := some 1, dx := some 0, dy := some 0,
                    canceled := false },
       Notif.drop { props := some 1, dx := some 0, dy := some 0,
                    canceled := false }] ∧
    IsIdle (run initMachine [Action.down 1 (PEvent.mouse 3 4), Action.fire,
      Action.up]).1 :=
  delay_elapsed_drag_then_drop initMachine 1 3 4 (by decide)

/-- C6: the teardown returned by `init()` does not remove every listener
`init()` registered: starting from an empty registry, `init` followed by its
teardown leaves the `contextmenu` and `touchcancel` listeners attached (no
removal is issued for them) and the capture-phase `touchstart` listener
attached (its removal is issued without the capture flag, which does not
match the capture-phase registration). -/
theorem teardown_leaves_listeners_attached :
    initTeardown (initListeners []) =
      [{ ev := "contextmenu", handler := Handler.cancel, capture := false },
       { ev := "touchcancel", handler := Handler.cancel, capture := false },
       { ev := "touchstart", handler := Handler.cancel, capture := true }] ∧
    initTeardown (initListeners []) ≠ [] := by
  decide

/-- C7: selection-suppression round-trip — for every gesture consisting of a
pointer-down, any sequence of in-gesture actions (moves and/or the timer
firing), and a terminal release or cancel, the document-body style values
present immediately before the gesture started are exactly the values
restored by that gesture's cleanup, whatever the four pre-existing values
were. -/
theorem selection_style_roundtrip (m : Machine) (p : Nat) (e : PEvent)
    (acts : List Action) (t : Action) (h : m.state.props = none)
    (hacts : ∀ a ∈ acts, Mid a)
    (hterm : t = Action.up ∨ t = Action.cancelEv) :
    (run m (Action.down p e :: (acts ++ [t]))).1.bodyStyle = m.bodyStyle := by
  have hstart : (step m (Action.down p e)).1 =
      { m with
          bodyStyle := m.styleVar
          styleVar := m.bodyStyle
          state := { m.state with props := some p }
          initial := fillPos e
          defer := some e } := by
    simp [step, start, toggleUserSelect, h]
  have hrun := run_mid_preserves acts (step m (Action.down p e)).1 hacts
  show (run (step m (Action.down p e)).1 (acts ++ [t])).1.bodyStyle = m.bodyStyle
  rw [run_append]
  set m2 := (run (step m (Action.down p e)).1 acts).1 with hm2
  have hb : m2.bodyStyle = m.styleVar := by rw [hrun.1, hstart]
  have hv : m2.styleVar = m.bodyStyle := by rw [hrun.2.1, hstart]
  have hp2 : m2.state.props = some p := by rw [hrun.2.2, hstart]
  rcases hterm with ht | ht <;> subst ht
  · show (run m2 [Action.up]).1.bodyStyle = m.bodyStyle
    simp [run, step, drop, cleanup, hp2, hv]
  · show (run m2 [Action.cancelEv]).1.bodyStyle = m.bodyStyle
    simp [run, step, cancel, cleanup, hp2, hv]

/-- C7 witness: a machine whose body carries custom user-select values,
taken through press, a move, timer fire, and release: the custom values are
restored unchanged. -/
theorem selection_style_roundtrip_witness :
    (run
        { initMachine with
            bodyStyle := { webkitUserSelect := "text", MozUserSelect := "auto",
                           msUserSelect := "element", userSelect := "all" } }
        (Action.down 1 (PEvent.mouse 0 0) ::
          ([Action.mv (PEvent.mouse 1 0), Action.fire] ++ [Action.up]))).1.bodyStyle =
      { webkitUserSelect := "text", MozUserSelect := "auto",
        msUserSelect := "element", userSelect := "all" } :=
  selection_style_roundtrip
    { initMachine with
        bodyStyle := { webkitUserSelect := "text", MozUserSelect := "auto",
                       msUserSelect := "element", userSelect := "all" } }
    1 (PEvent.mouse 0 0) [Action.mv (PEvent.mouse 1 0), Action.fire] Action.up
    (by decide)
    (by intro a ha
        simp only [List.mem_cons, List.not_mem_nil, or_false] at ha
        rcases ha with ha | ha
        · exact Or.inr ⟨PEvent.mouse 1 0, ha⟩
        · exact Or.inl ha)
    (Or.inl rfl)

/-- C8: if a subscriber handler throws while the terminal `dnd-drop` is
dispatched — on the cancel path, or on the drop path (where the dispatch
happens when no timer is pending) — cleanup still runs unconditionally: the
state returns to idle with the timer cleared, the saved user-select style
values are written back to the body, and the exception propagates to the
caller rather than being swallowed. -/
theorem throwing_subscriber_cleanup (m : Machine) (q : Nat)
    (hp : m.state.props = some q) :
    ((cancelThrow true m).2.2 = true ∧
     IsIdle (cancelThrow true m).1 ∧
     (cancelThrow true m).1.bodyStyle = m.styleVar) ∧
    (m.defer = none →
     (dropThrow true m).2.2 = true ∧
     IsIdle (dropThrow true m).1 ∧
     (dropThrow true m).1.bodyStyle = m.styleVar) := by
  constructor
  · simp [cancelThrow, cleanup, IsIdle, hp]
  · intro hd
    simp [dropThrow, cleanup, IsIdle, hp, hd]

/-- C8 witness: a throwing subscriber on the cancel path of the Pending
machine pressed at `(0, 0)`, and on the drop path of the Dragging machine
obtained by letting the timer fire. -/
theorem throwing_subscriber_cleanup_witness :
    IsIdle (cancelThrow true
      (run initMachine [Action.down 1 (PEvent.mouse 0 0)]).1).1 ∧
    (cancelThrow true
      (run initMachine [Action.down 1 (PEvent.mouse 0 0)]).1).2.2 = true ∧
    IsIdle (dropThrow true
      (run initMachine [Action.down 1 (PEvent.mouse 0 0), Action.fire]).1).1 ∧
    (dropThrow true
      (run initMachine [Action.down 1 (PEvent.mouse 0 0), Action.fire]).1).2.2 =
      true :=
  have h1 := throwing_subscriber_cleanup
    (run initMachine [Action.down 1 (PEvent.mouse 0 0)]).1 1 (by decide)
  have h2 := throwing_subscriber_cleanup
    (run initMachine [Action.down 1 (PEvent.mouse 0 0), Action.fire]).1 1
    (by decide)
  ⟨h1.1.2.1, h1.1.1, (h2.2 (by decide)).2.1, (h2.2 (by decide)).1⟩

/-- C9: the idle invariant — no recorded subject implies zero deltas, a
clear `canceled` flag and no armed timer — is preserved by every handler
invocation, and every move, drop, or cancel received while idle leaves the
machine unchanged and emits no notification. -/
theorem idle_invariant (m : Machine) (hI : Inv m) :
    (∀ a, Inv (step m a).1) ∧
    (m.state.props = none →
      (∀ e, move e m = (m, [])) ∧ drop m = (m, []) ∧ cancel m = (m, [])) := by
  constructor
  · intro a
    cases a with
    | down p e =>
      by_cases hp : m.state.props = none
      · intro h
        simp [step, start, toggleUserSelect, hp] at h
      · simp [step, start, cancel, cleanup, Inv, hp]
    | mv e =>
      intro h
      have hpp := (step_mid_preserves m (Action.mv e) (Or.inr ⟨e, rfl⟩)).2.2
      rw [hpp] at h
      have hids := hI h
      have hm : step m (Action.mv e) = (m, []) := by simp [step, move, h]
      rw [hm]
      exact hids
    | up =>
      by_cases hp : m.state.props = none
      · simpa [step, drop, hp] using hI
      · simp [step, drop, cleanup, Inv, hp]
    | fire =>
      intro h
      have hpp := (step_mid_preserves m Action.fire (Or.inl rfl)).2.2
      rw [hpp] at h
      have hids := hI h
      have hm : step m Action.fire = (m, []) := by
        simp [step, timerFire, hids.2.2.2]
      rw [hm]
      exact hids
    | cancelEv =>
      by_cases hp : m.state.props = none
      · simpa [step, cancel, hp] using hI
      · simp [step, cancel, cleanup, Inv, hp]
  · intro h
    exact ⟨fun e => by simp [move, h], by simp [drop, h], by simp [cancel, h]⟩

/-- C9 witness: the invariant holds of the fresh machine, is preserved by a
release, and idle events are no-ops there. -/
theorem idle_invariant_witness :
    Inv (step initMachine Action.up).1 ∧
    move (PEvent.mouse 1 2) initMachine = (initMachine, []) ∧
    drop initMachine = (initMachine, []) ∧
    cancel initMachine = (initMachine, []) :=
  have h := idle_invariant initMachine (by decide)
  ⟨h.1 Action.up, (h.2 (by decide)).1 (PEvent.mouse 1 2), (h.2 (by decide)).2.1,
   (h.2 (by decide)).2.2⟩

/-- C10: calling `draggable` with an `undefined` config throws a `TypeError`
on the unguarded access `config.delay`, for any current module threshold;
there is no fallback to the default configuration. -/
theorem draggable_undefined_config_throws :
    ∀ dt : Int, draggableConfig none dt = Except.error JsError.typeError := by
  intro dt
  rfl

end DndCore
